import Mathlib

/-!
Verification development for the syllabus-tracker application
(`app1.py` / `app2.py`): a shallow embedding of the spreadsheet store,
the reconciliation (merge) engine, the submission audit, the submit
operation and the notification retry loop, together with theorems about
the properties stated in the design document.

Conventions of the embedding:
* A worksheet cell is a `String`; a row is a `List String`.  Sheets are
  modelled with their data rows only (the header row, which the code
  always drops with `get_all_values()[1:]`, is omitted); consequently
  the code's 1-based cell addresses `G{i}` with `i = dataIndex + 2`
  are modelled as 0-based data indices.
* `datetime.now().strftime(...)` is modelled as an explicit timestamp
  parameter (timestamps are opaque strings for every property here).
* Store read failures (network/API errors caught by per-sheet
  `try/except` blocks in `merge_weekly_to_master`) are modelled by the
  `faulted` field of `Store`: reading a faulted sheet raises, which the
  merge catches per sheet.  `fetch_worksheet_data` returns `[]` on such
  errors, which `readData` mirrors.
* Python `row[i]` is modelled by `cell` (default `""`); every use is
  guarded by the same length checks the code performs, except the one
  in the app1 admin audit, which is deliberately modelled with the
  partial accessor `List.get?` (see `submittedPairs_app1`).
-/

namespace SyllabusTracker

abbrev Row := List String

/-- `row[i]` under the length guards the code performs before indexing. -/
def cell (r : Row) (i : Nat) : String := r.getD i ""

/-- Python `str.strip()`: drop leading and trailing whitespace.  Defined
structurally over the character list so that it evaluates by kernel
reduction (`String.trim` is extensionally the same on these inputs). -/
def pyStrip (s : String) : String :=
  String.mk (((s.data.dropWhile Char.isWhitespace).reverse.dropWhile
    Char.isWhitespace).reverse)

/-- Python `str.endswith(t)`, structurally over character lists. -/
def pyEndsWith (s t : String) : Bool := t.data.isSuffixOf s.data

/-- Python `str.lower()`, structurally over character lists. -/
def pyLower (s : String) : String := String.mk (s.data.map Char.toLower)

/-- `str(row[6]).strip() in ["1", "TRUE", "true"]` — the synced-flag test. -/
def syncedFlag (s : String) : Bool :=
  pyStrip s == "1" || pyStrip s == "TRUE" || pyStrip s == "true"

/-- `len(row) < 7 or str(row[6]).strip() in ["1", "TRUE", "true"]` —
the merge's skip condition for malformed or already-synced rows. -/
def skipRow (r : Row) : Bool :=
  decide (r.length < 7) || syncedFlag (cell r 6)

/-- `ws.update_acell(f"G{i}", "1")` restricted to one row: set the
synced-flag cell (0-based column 6) to `"1"`. -/
def setFlag (r : Row) : Row := r.set 6 "1"

/-- Python `dict` built from an association list (later bindings win),
queried with `.get` — `none` on a missing key. -/
def dictGet (pairs : List (String × String)) (k : String) : Option String :=
  (pairs.reverse.find? (fun p => p.1 == k)).map (fun p => p.2)

/-- `{row[2]: row[1] for row in batches_data if len(row) > 2}` —
batch id (column 2) to center (column 1). -/
def batchPairs (batchesData : List Row) : List (String × String) :=
  batchesData.filterMap (fun r =>
    if 2 < r.length then some (cell r 2, cell r 1) else none)

/-- `batch_to_center.get(batch_id, "Unknown Center")`. -/
def batch_to_center (batchesData : List Row) (batchId : String) : String :=
  (dictGet (batchPairs batchesData) batchId).getD "Unknown Center"

/-- `{row[2]: row[1] for row in centers_data if len(row) > 2}` —
center name (column 2) to country (column 1). -/
def centerPairs (centersData : List Row) : List (String × String) :=
  centersData.filterMap (fun r =>
    if 2 < r.length then some (cell r 2, cell r 1) else none)

/-- `center_to_country.get(center, "Unknown Country")`. -/
def center_to_country (centersData : List Row) (center : String) : String :=
  (dictGet (centerPairs centersData) center).getD "Unknown Country"

/-- A dedup key `(center, batch_id, subject, week-slot)`. -/
abbrev MKey := String × String × String × String

/-- The key the code stores for an existing master row:
`(row[2], row[3], row[4], str(row[5]))` guarded by
`len(row) > max(IDX_MASTER_CENTER, IDX_MASTER_BATCH_ID, IDX_MASTER_SUBJECT,
IDX_MASTER_WEEK)`, i.e. `len(row) > 5`.  Note that in the 8-column
master layout the code itself writes, index 5 holds the *faculty*. -/
def storedKey? (r : Row) : Option MKey :=
  if 5 < r.length then some (cell r 2, cell r 3, cell r 4, cell r 5) else none

/-- The `existing_keys` set built from the master sheet's data rows. -/
def masterKeys (masterData : List Row) : List MKey :=
  masterData.filterMap storedKey?

/-- The composite key of a master row per the documented 8-column layout
`[sync_timestamp, country, center, batch_id, subject, faculty, chapters,
week]`: `(center, batch_id, subject, week)` with week at index 7. -/
def specKey? (r : Row) : Option MKey :=
  if 7 < r.length then some (cell r 2, cell r 3, cell r 4, cell r 7) else none

/-- The row loop of `merge_weekly_to_master` over one progress sheet
(app2 lines 259–286).  State: the dedup key set, the accumulated
`data_to_sync` master rows, and the accumulated `updates_to_make`
(data indices whose flag cell is to be set to `"1"`). -/
def processRows (b2c c2c : String → String) (ts : String) :
    List MKey → List Row → Nat → List MKey × List Row × List Nat
  | keys, [], _ => (keys, [], [])
  | keys, r :: rest, i =>
    if skipRow r then processRows b2c c2c ts keys rest (i + 1)
    else
      let batchId := cell r 1
      let subject := cell r 2
      let week := cell r 5
      let center := b2c batchId
      let country := c2c center
      let k : MKey := (center, batchId, subject, week)
      if k ∈ keys then
        let out := processRows b2c c2c ts keys rest (i + 1)
        (out.1, out.2.1, if syncedFlag (cell r 6) then out.2.2 else i :: out.2.2)
      else
        let mrow := [ts, country, center] ++ (r.drop 1).take 5
        let out := processRows b2c c2c ts (k :: keys) rest (i + 1)
        (out.1, mrow :: out.2.1, i :: out.2.2)

/-- One entry of the `ws.batch_update` call: set the flag cell of the
row at the given data index. -/
def applyFlagUpdate (rows : List Row) (i : Nat) : List Row :=
  rows.set i (setFlag (rows.getD i []))

/-- `ws.batch_update(updates_to_make, ...)`. -/
def applyUpdates (rows : List Row) (upds : List Nat) : List Row :=
  upds.foldl applyFlagUpdate rows

structure Sheet where
  title : String
  rows : List Row
deriving DecidableEq, Repr

structure Store where
  sheets : List Sheet
  faulted : List String
deriving DecidableEq, Repr

def masterTitle : String := "Central_Weekly_Progress"

/-- `ws.title.endswith("_Progress") and ws.title != "Central_Weekly_Progress"`. -/
def isProgressSheet (t : String) : Bool :=
  pyEndsWith t "_Progress" && !(t == masterTitle)

/-- `sheet.worksheet(name)` — first sheet with the given title. -/
def findSheet (sheets : List Sheet) (t : String) : Option Sheet :=
  sheets.find? (fun sh => sh.title == t)

/-- Replace the rows of the first sheet with the given title. -/
def setFirstRows : List Sheet → String → List Row → List Sheet
  | [], _, _ => []
  | sh :: rest, t, rows =>
    if sh.title == t then { sh with rows := rows } :: rest
    else sh :: setFirstRows rest t rows

/-- `fetch_worksheet_data`: data rows of a named sheet, `[]` when the
sheet is missing or its read fails. -/
def readData (st : Store) (t : String) : List Row :=
  match findSheet st.sheets t with
  | some sh => if st.faulted.contains t then [] else sh.rows
  | none => []

/-- The sheet loop of `merge_weekly_to_master`: walk the worksheets in
order, process each progress sheet (per-sheet `try/except`: a faulted
sheet is recorded and skipped, the loop continues), threading the dedup
key set and accumulating appended master rows and per-sheet errors. -/
def mergeSheets (b2c c2c : String → String) (ts : String) (faulted : List String) :
    List MKey → List Sheet → List Sheet × List Row × List String
  | _, [] => ([], [], [])
  | keys, sh :: rest =>
    if isProgressSheet sh.title then
      if faulted.contains sh.title then
        let out := mergeSheets b2c c2c ts faulted keys rest
        (sh :: out.1, out.2.1, sh.title :: out.2.2)
      else
        let p := processRows b2c c2c ts keys sh.rows 0
        let out := mergeSheets b2c c2c ts faulted p.1 rest
        ({ sh with rows := applyUpdates sh.rows p.2.2 } :: out.1,
         p.2.1 ++ out.2.1, out.2.2)
    else
      let out := mergeSheets b2c c2c ts faulted keys rest
      (sh :: out.1, out.2.1, out.2.2)

/-- `merge_weekly_to_master(sheet)` (app2 lines 221–302).  Returns the
updated store and the list of per-sheet errors.  If the master sheet is
missing or unreadable the outer `except` fires and nothing changes. -/
def merge_weekly_to_master (st : Store) (ts : String) : Store × List String :=
  match findSheet st.sheets masterTitle with
  | none => (st, ["master worksheet not found"])
  | some mws =>
    if st.faulted.contains masterTitle then (st, ["master worksheet read failed"])
    else
      let b2c := batch_to_center (readData st "Batches")
      let c2c := center_to_country (readData st "Centers")
      let out := mergeSheets b2c c2c ts st.faulted (masterKeys mws.rows) st.sheets
      ({ st with sheets := setFirstRows out.1 masterTitle (mws.rows ++ out.2.1) },
       out.2.2)

/-- The data rows of the master sheet of a store. -/
def masterRowsOf (st : Store) : List Row :=
  ((findSheet st.sheets masterTitle).map Sheet.rows).getD []

/-- The sheet-loop output of a merge run (used to state the unfolding
lemma for `merge_weekly_to_master`). -/
def mergeParts (st : Store) (ts : String) (mws : Sheet) :
    List Sheet × List Row × List String :=
  mergeSheets (batch_to_center (readData st "Batches"))
    (center_to_country (readData st "Centers")) ts st.faulted
    (masterKeys mws.rows) st.sheets

/-- `submit_to_progress_sheet` (app2 lines 198–219): look up the sheet
named `"<Center>_Progress"`; if absent, report failure and change
nothing (the `WorksheetNotFound` branch — the sheet is not created);
otherwise append the 7-column row
`[timestamp, batch, subject, faculty, ", ".join(chapters), str(week), "0"]`
and report success. -/
def submit_to_progress_sheet (st : Store) (center batchId subject faculty : String)
    (chapters : List String) (week : Nat) (ts : String) : Store × Bool :=
  let name := center ++ "_Progress"
  match findSheet st.sheets name with
  | none => (st, false)
  | some sh =>
    let row : Row := [ts, batchId, subject, faculty,
                      String.intercalate ", " chapters, toString week, "0"]
    ({ st with sheets := setFirstRows st.sheets name (sh.rows ++ [row]) }, true)

/-- One row of the admin "missing submissions" result. -/
structure MissingEntry where
  country : String
  center : String
  batchId : String
  email : String
deriving DecidableEq, Repr

/-- app2 `show_admin_page`:
`{row[2]: row[3] for row in center_data if len(row) > 3 and row[3]}` —
center name to e-mail, skipping rows with an empty e-mail cell. -/
def emailPairs_app2 (centersData : List Row) : List (String × String) :=
  centersData.filterMap (fun r =>
    if 3 < r.length && !(cell r 3 == "") then some (cell r 2, cell r 3) else none)

/-- app2 `show_admin_page` `submitted_this_week`: batch ids of master
rows with `len(row) > max(IDX_MASTER_BATCH_ID, IDX_MASTER_WEEK)` (i.e.
`> 5`) and `str(row[IDX_MASTER_WEEK]).strip() == str(week_number)`,
where `IDX_MASTER_WEEK = 5`. -/
def submitted_app2 (masterData : List Row) (week : Nat) : List String :=
  masterData.filterMap (fun r =>
    if 5 < r.length && (pyStrip (cell r 5) == toString week)
    then some (cell r 3) else none)

/-- app2 `show_admin_page` missing-submissions check (lines 410–437):
active batches are batch rows with `len(row) > 2`
(`{"country": row[0], "center": row[1], "batch_id": row[2]}`); a batch
is reported missing when its id is not in `submitted_this_week`; the
e-mail defaults to `"N/A - Email not found"`. -/
def findMissing_app2 (batchesData centersData masterData : List Row)
    (week : Nat) : List MissingEntry :=
  (batchesData.filter (fun r => decide (2 < r.length))).filterMap (fun r =>
    if (submitted_app2 masterData week).contains (cell r 2) then none
    else some ⟨cell r 0, cell r 1, cell r 2,
               (dictGet (emailPairs_app2 centersData) (cell r 1)).getD
                 "N/A - Email not found"⟩)

/-- Sequential evaluation of a list of fallible results: the first
failure aborts the whole computation (Python generator semantics under
`IndexError`). -/
def seqOption {α : Type} : List (Option α) → Option (List α)
  | [] => some []
  | o :: rest => o.bind (fun a => (seqOption rest).map (fun l => a :: l))

/-- app1 admin page (line 403):
`submitted = set((row[3], row[7]) for row in master_data if len(row) > 5)`.
The accesses `row[3]` and `row[7]` are modelled with the checked
accessor `·[i]?`: a row passing the `len(row) > 5` guard but having
fewer than 8 columns makes `row[7]` raise `IndexError`, i.e. the whole
construction returns `none`. -/
def submittedPairs_app1 (masterData : List Row) : Option (List (String × String)) :=
  seqOption ((masterData.filter (fun r => decide (5 < r.length))).map (fun r =>
    r[3]?.bind (fun b => r[7]?.map (fun w => (b, w)))))

/-- app1 `{row[2]: row[3] for row in center_data if len(row) > 3}`. -/
def emailPairs_app1 (centersData : List Row) : List (String × String) :=
  centersData.filterMap (fun r =>
    if 3 < r.length then some (cell r 2, cell r 3) else none)

/-- app1 admin missing-submissions check (lines 396–416): active batches
are batch rows with `len(row) >= 3`; a batch is missing when
`(batch_id, str(week_number))` is not in the submitted pair set; e-mail
defaults to `"N/A"`; country is `row[0]`.  `none` when the submitted-set
construction raises. -/
def findMissing_app1 (batchesData centersData masterData : List Row)
    (week : Nat) : Option (List MissingEntry) :=
  (submittedPairs_app1 masterData).map (fun submitted =>
    (batchesData.filter (fun r => decide (3 ≤ r.length))).filterMap (fun r =>
      if submitted.contains (cell r 2, toString week) then none
      else some ⟨cell r 0, cell r 1, cell r 2,
                 (dictGet (emailPairs_app1 centersData) (cell r 1)).getD "N/A"⟩))

/-- Did `requests.post` return HTTP 200?  (`.error` models a raised
transport exception, `.ok s` a response with status code `s`.) -/
def isOk200 (r : Except String Nat) : Bool :=
  match r with
  | .ok s => decide (s = 200)
  | .error _ => false

/-- The `while attempt < max_retries` loop of `safe_post_with_retry`
(app1 lines 173–195), with `fuel = max_retries - attempt`.  `post n` is
the result of the `n`-th `requests.post` call.  Returns the success
flag, the number of attempts made, and the list of `time.sleep` delays
performed (the code sleeps `backoff` after *every* failed attempt, the
last one included, doubling the backoff each time). -/
def retryLoop (post : Nat → Except String Nat) :
    Nat → Nat → Nat → Bool × Nat × List Nat
  | 0, _, _ => (false, 0, [])
  | fuel + 1, attempt, backoff =>
    match post attempt with
    | .ok status =>
      if status = 200 then (true, 1, [])
      else
        let out := retryLoop post fuel (attempt + 1) (backoff * 2)
        (out.1, out.2.1 + 1, backoff :: out.2.2)
    | .error _ =>
      let out := retryLoop post fuel (attempt + 1) (backoff * 2)
      (out.1, out.2.1 + 1, backoff :: out.2.2)

/-- `safe_post_with_retry(url, payload, max_retries, timeout=10)` with
the initial `attempt = 0` and `backoff = 2`; the call sites use the
default `max_retries = 3`. -/
def safe_post_with_retry (post : Nat → Except String Nat)
    (maxRetries : Nat) : Bool × Nat × List Nat :=
  retryLoop post maxRetries 0 2

/-! ### Concrete fixtures

Small concrete stores used by the evaluation theorems below.  The
reference sheets follow the layouts the code indexes into:
`Batches` rows `[_, center, batch_id, ...]`, `Centers` rows
`[_, country, center_name, email]`, master rows
`[sync_ts, country, center, batch_id, subject, faculty, chapters, week]`.
-/

/-- A well-formed, unsynced progress row for batch `B100`, week `3`. -/
def c1Row : Row := ["2024-01-10 09:00:00", "B100", "Math", "F.Smith", "Ch1, Ch2", "3", "0"]

/-- A master table whose only row is for week `"9"` — but whose faculty
cell (index 5) happens to hold the string `"3"`. -/
def c1Master : List Row := [["ts0", "CountryX", "Alpha", "B100", "Math", "3", "ChX", "9"]]

def c1Store : Store :=
  { sheets := [⟨"Batches", [["x", "Alpha", "B100"]]⟩,
               ⟨"Centers", [["x", "CountryX", "Alpha"]]⟩,
               ⟨masterTitle, c1Master⟩,
               ⟨"Alpha_Progress", [c1Row]⟩],
    faulted := [] }

/-- A duplicate-free master table already holding the week-3 fact for
(Alpha, B100, Math). -/
def c2Master : List Row := [["ts0", "CountryX", "Alpha", "B100", "Math", "F.Smith", "Ch1", "3"]]

def c2Row : Row := ["t", "B100", "Math", "F.Smith", "Ch1, Ch2", "3", "0"]

def c2Store : Store :=
  { sheets := [⟨"Batches", [["x", "Alpha", "B100"]]⟩,
               ⟨"Centers", [["x", "CountryX", "Alpha"]]⟩,
               ⟨masterTitle, c2Master⟩,
               ⟨"Alpha_Progress", [c2Row]⟩],
    faulted := [] }

def c4Master : List Row := [["ts0", "CountryX", "Alpha", "B100", "Math", "F.Smith", "Ch1", "3"]]

/-- An unsynced row whose dedup key (Alpha, B100, Math, 3) already has a
master counterpart (`c4Master`), submitted by a different faculty. -/
def c4Row : Row := ["t2", "B100", "Math", "NewFac", "Ch9", "3", "0"]

def c4Store : Store :=
  { sheets := [⟨"Batches", [["x", "Alpha", "B100"]]⟩,
               ⟨"Centers", [["x", "CountryX", "Alpha"]]⟩,
               ⟨masterTitle, c4Master⟩,
               ⟨"Alpha_Progress", [c4Row]⟩],
    faulted := [] }

/-- A progress row whose synced flag reads `"True"`. -/
def c5Row : Row := ["t", "B1", "Math", "F", "Ch", "3", "True"]

def c5Store : Store :=
  { sheets := [⟨masterTitle, []⟩, ⟨"A_Progress", [c5Row]⟩],
    faulted := [] }

/-- A store with a single already-synced progress row (used to witness
the skip half of the amended skip-predicate claim). -/
def c5DoneRow : Row := ["t", "B1", "Math", "F", "Ch", "3", "1"]

def c5DoneStore : Store :=
  { sheets := [⟨masterTitle, []⟩, ⟨"A_Progress", [c5DoneRow]⟩],
    faulted := [] }

def c6Batches : List Row := [["CoX", "C1", "B1"]]
def c6Centers : List Row := [["x", "CoX", "C1", "c1@x.com"]]

/-- A master table recording batch `B1` for week 5 (week field
`row[7] = "5"`), with faculty `"F"` in column 5. -/
def c6Master : List Row := [["ts", "CoX", "C1", "B1", "Math", "F", "Ch", "5"]]

def c8Sheet : Sheet := ⟨"Alpha_Progress", [c5DoneRow]⟩

def c8Store : Store := { sheets := [⟨masterTitle, []⟩, c8Sheet], faulted := [] }

/-! ### Basic lemmas about the row-level operations -/

theorem length_applyFlagUpdate (rows : List Row) (i : Nat) :
    (applyFlagUpdate rows i).length = rows.length := by
  simp [applyFlagUpdate]

theorem setFlag_setFlag (r : Row) : setFlag (setFlag r) = setFlag r := by
  simp [setFlag, List.set_set]

theorem getElem?_applyFlagUpdate (rows : List Row) (i j : Nat) :
    (applyFlagUpdate rows i)[j]? =
      if i = j then (rows[j]?).map setFlag else rows[j]? := by
  unfold applyFlagUpdate
  rw [List.getElem?_set]
  by_cases hij : i = j
  · subst hij
    by_cases hl : i < rows.length
    · have : rows[i]? = some rows[i] := List.getElem?_eq_getElem hl
      simp [hl, this, setFlag, List.getD_eq_getElem?_getD]
    · have : rows[i]? = none := List.getElem?_eq_none (by omega)
      simp [hl, this]
  · simp [hij]

theorem getElem?_applyUpdates :
    ∀ (upds : List Nat) (rows : List Row) (j : Nat),
      (applyUpdates rows upds)[j]? =
        if j ∈ upds then (rows[j]?).map setFlag else rows[j]?
  | [], rows, j => by simp [applyUpdates]
  | u :: us, rows, j => by
    have ih := getElem?_applyUpdates us (applyFlagUpdate rows u) j
    have hstep : applyUpdates rows (u :: us) = applyUpdates (applyFlagUpdate rows u) us := rfl
    rw [hstep, ih, getElem?_applyFlagUpdate]
    by_cases hu : u = j <;> by_cases hm : j ∈ us <;>
      cases hr : rows[j]? <;>
      simp [hu, hm, hr, List.mem_cons, setFlag_setFlag, Ne.symm]

theorem applyUpdates_nil (rows : List Row) : applyUpdates rows [] = rows := rfl

theorem not_skip_flag {r : Row} (h : skipRow r = false) :
    syncedFlag (cell r 6) = false := by
  simp [skipRow] at h
  exact h.2

theorem not_skip_len {r : Row} (h : skipRow r = false) : 7 ≤ r.length := by
  simp [skipRow] at h
  omega

theorem skipRow_setFlag {r : Row} (h : 7 ≤ r.length) : skipRow (setFlag r) = true := by
  have h6 : (r.set 6 "1")[6]? = some "1" := List.getElem?_set_self (by omega)
  have hc : cell (setFlag r) 6 = "1" := by
    simp [cell, setFlag, List.getD_eq_getElem?_getD, h6]
  have : syncedFlag "1" = true := by decide
  simp [skipRow, hc, this]

/-! ### Lemmas about `processRows` -/

section ProcessRows

variable (b2c c2c : String → String) (ts : String)

theorem processRows_upds_ge :
    ∀ (rows : List Row) (keys : List MKey) (i0 x : Nat),
      x ∈ (processRows b2c c2c ts keys rows i0).2.2 → i0 ≤ x
  | [], _, _, _ => by simp [processRows]
  | r :: rest, keys, i0, x => by
    intro hx
    by_cases hs : skipRow r
    · rw [show processRows b2c c2c ts keys (r :: rest) i0 =
          processRows b2c c2c ts keys rest (i0 + 1) from by simp [processRows, hs]] at hx
      have := processRows_upds_ge rest keys (i0 + 1) x hx
      omega
    · simp only [processRows, hs, if_false, Bool.false_eq_true] at hx
      by_cases hk : (b2c (cell r 1), cell r 1, cell r 2, cell r 5) ∈ keys
      · simp only [hk, if_true, not_skip_flag (by simpa using hs), if_false,
          Bool.false_eq_true, List.mem_cons] at hx
        rcases hx with rfl | hx
        · omega
        · have := processRows_upds_ge rest keys (i0 + 1) x hx
          omega
      · simp only [hk, if_false, List.mem_cons] at hx
        rcases hx with rfl | hx
        · omega
        · have := processRows_upds_ge rest _ (i0 + 1) x hx
          omega

theorem processRows_upds_mem :
    ∀ (rows : List Row) (keys : List MKey) (i0 j : Nat),
      ((i0 + j) ∈ (processRows b2c c2c ts keys rows i0).2.2 ↔
        ∃ r, rows[j]? = some r ∧ skipRow r = false)
  | [], keys, i0, j => by simp [processRows]
  | r :: rest, keys, i0, j => by
    by_cases hs : skipRow r
    · rw [show processRows b2c c2c ts keys (r :: rest) i0 =
          processRows b2c c2c ts keys rest (i0 + 1) from by simp [processRows, hs]]
      cases j with
      | zero =>
        simp only [Nat.add_zero, List.getElem?_cons_zero]
        constructor
        · intro hx
          have := processRows_upds_ge b2c c2c ts rest keys (i0 + 1) i0 hx
          omega
        · rintro ⟨r', hr', hsk⟩
          cases hr'
          rw [hs] at hsk
          cases hsk
      | succ j' =>
        rw [show i0 + (j' + 1) = (i0 + 1) + j' from by omega]
        rw [processRows_upds_mem rest keys (i0 + 1) j']
        simp
    · have hflag6 := not_skip_flag (by simpa using hs)
      have hmain : ∃ keys', (processRows b2c c2c ts keys (r :: rest) i0).2.2 =
          i0 :: (processRows b2c c2c ts keys' rest (i0 + 1)).2.2 := by
        by_cases hk : (b2c (cell r 1), cell r 1, cell r 2, cell r 5) ∈ keys
        · exact ⟨keys, by simp [processRows, hs, hk, hflag6]⟩
        · exact ⟨(b2c (cell r 1), cell r 1, cell r 2, cell r 5) :: keys,
            by simp [processRows, hs, hk]⟩
      rcases hmain with ⟨keys', hkeys'⟩
      rw [hkeys']
      cases j with
      | zero =>
        constructor
        · intro _
          exact ⟨r, by simp, by simpa using hs⟩
        · intro _
          simp
      | succ j' =>
        simp only [List.mem_cons, List.getElem?_cons_succ]
        rw [show i0 + (j' + 1) = (i0 + 1) + j' from by omega]
        rw [processRows_upds_mem rest keys' (i0 + 1) j']
        have : ¬((i0 + 1) + j' = i0) := by omega
        simp [this]

theorem processRows_of_done :
    ∀ (rows : List Row) (keys : List MKey) (i0 : Nat),
      (∀ r ∈ rows, skipRow r = true) →
      processRows b2c c2c ts keys rows i0 = (keys, [], [])
  | [], keys, i0, _ => rfl
  | r :: rest, keys, i0, h => by
    have hr : skipRow r = true := h r (List.mem_cons_self r rest)
    have hrest : ∀ x ∈ rest, skipRow x = true := fun x hx => h x (List.mem_cons_of_mem r hx)
    simp [processRows, hr, processRows_of_done rest keys (i0 + 1) hrest]

/-- After `processRows` + `applyUpdates`, every row of the sheet
satisfies the skip predicate (it was either skipped, hence already
satisfied it, or flagged `"1"`). -/
theorem done_after_process (rows : List Row) (keys : List MKey) :
    ∀ x ∈ applyUpdates rows (processRows b2c c2c ts keys rows 0).2.2,
      skipRow x = true := by
  intro x hx
  rcases List.mem_iff_getElem?.1 hx with ⟨i, hi⟩
  rw [getElem?_applyUpdates] at hi
  by_cases hm : i ∈ (processRows b2c c2c ts keys rows 0).2.2
  · rw [if_pos hm] at hi
    rcases (processRows_upds_mem b2c c2c ts rows keys 0 i).1 (by simpa using hm)
      with ⟨r, hr, hsk⟩
    rw [hr] at hi
    simp only [Option.map_some'] at hi
    cases hi
    exact skipRow_setFlag (not_skip_len hsk)
  · rw [if_neg hm] at hi
    cases h : skipRow x with
    | true => rfl
    | false =>
      exfalso
      apply hm
      have := (processRows_upds_mem b2c c2c ts rows keys 0 i).2 ⟨x, hi, h⟩
      simpa using this

end ProcessRows

/-! ### Lemmas about `findSheet`, `setFirstRows` and `mergeSheets` -/

theorem progress_ne_master {t : String} (h : isProgressSheet t = true) :
    (t == masterTitle) = false := by
  simp only [isProgressSheet, Bool.and_eq_true, Bool.not_eq_true'] at h
  exact h.2

theorem isProgressSheet_masterTitle : isProgressSheet masterTitle = false := by decide

theorem findSheet_nil (t : String) : findSheet [] t = none := rfl

theorem findSheet_cons (sh : Sheet) (rest : List Sheet) (t : String) :
    findSheet (sh :: rest) t =
      if (sh.title == t) = true then some sh else findSheet rest t := by
  cases h0 : (sh.title == t) with
  | true => simp [findSheet, List.find?, h0]
  | false => simp [findSheet, List.find?, h0]

theorem findSheet_setFirstRows_self :
    ∀ (sheets : List Sheet) (t : String) (rows : List Row) (sh : Sheet),
      findSheet sheets t = some sh →
      findSheet (setFirstRows sheets t rows) t = some { sh with rows := rows }
  | [], t, rows, sh => by simp [findSheet]
  | sh0 :: rest, t, rows, sh => by
    intro h
    rw [findSheet_cons] at h
    by_cases h0 : (sh0.title == t) = true
    · rw [if_pos h0] at h
      cases h
      simp only [setFirstRows, if_pos h0]
      rw [findSheet_cons, if_pos h0]
    · rw [if_neg h0] at h
      have hrec := findSheet_setFirstRows_self rest t rows sh h
      simp only [setFirstRows, if_neg h0]
      rw [findSheet_cons, if_neg h0]
      exact hrec

theorem setFirstRows_findSheet_rows :
    ∀ (sheets : List Sheet) (t : String) (sh : Sheet),
      findSheet sheets t = some sh →
      setFirstRows sheets t sh.rows = sheets
  | [], t, sh => by simp [findSheet]
  | sh0 :: rest, t, sh => by
    intro h
    rw [findSheet_cons] at h
    by_cases h0 : (sh0.title == t) = true
    · rw [if_pos h0] at h
      cases h
      simp only [setFirstRows, if_pos h0]
    · rw [if_neg h0] at h
      simp only [setFirstRows, if_neg h0]
      rw [setFirstRows_findSheet_rows rest t sh h]

theorem getElem?_setFirstRows_ne :
    ∀ (sheets : List Sheet) (t : String) (rows : List Row) (j : Nat) (sh : Sheet),
      sheets[j]? = some sh → (sh.title == t) = false →
      (setFirstRows sheets t rows)[j]? = some sh
  | [], _, _, j, _ => by simp
  | sh0 :: rest, t, rows, j, sh => by
    intro hj hne
    cases j with
    | zero =>
      simp only [List.getElem?_cons_zero] at hj
      cases hj
      simp [setFirstRows, hne]
    | succ j' =>
      simp only [List.getElem?_cons_succ] at hj
      by_cases h0 : (sh0.title == t) = true
      · simp [setFirstRows, h0, hj]
      · simp only [setFirstRows, if_neg h0, List.getElem?_cons_succ]
        exact getElem?_setFirstRows_ne rest t rows j' sh hj hne

theorem mem_setFirstRows :
    ∀ (sheets : List Sheet) (t : String) (rows : List Row) (sh' : Sheet),
      sh' ∈ setFirstRows sheets t rows →
      sh' ∈ sheets ∨ ∃ sh, sh ∈ sheets ∧ (sh.title == t) = true ∧
        sh' = { sh with rows := rows }
  | [], _, _, _ => by simp [setFirstRows]
  | sh0 :: rest, t, rows, sh' => by
    intro h
    by_cases h0 : (sh0.title == t) = true
    · simp only [setFirstRows, if_pos h0, List.mem_cons] at h
      rcases h with rfl | h
      · exact Or.inr ⟨sh0, List.mem_cons_self _ _, h0, rfl⟩
      · exact Or.inl (List.mem_cons_of_mem _ h)
    · simp only [setFirstRows, if_neg h0, List.mem_cons] at h
      rcases h with rfl | h
      · exact Or.inl (List.mem_cons_self _ _)
      · rcases mem_setFirstRows rest t rows sh' h with h | ⟨sh, hsh, ht, rfl⟩
        · exact Or.inl (List.mem_cons_of_mem _ h)
        · exact Or.inr ⟨sh, List.mem_cons_of_mem _ hsh, ht, rfl⟩

section MergeSheets

variable (b2c c2c : String → String) (ts : String) (faulted : List String)

theorem mergeSheets_cons_nonprog {sh : Sheet} (rest : List Sheet) (keys : List MKey)
    (hp : isProgressSheet sh.title = false) :
    mergeSheets b2c c2c ts faulted keys (sh :: rest) =
      (sh :: (mergeSheets b2c c2c ts faulted keys rest).1,
       (mergeSheets b2c c2c ts faulted keys rest).2.1,
       (mergeSheets b2c c2c ts faulted keys rest).2.2) := by
  simp only [mergeSheets]
  rw [if_neg (by rw [hp]; exact Bool.false_ne_true)]

theorem mergeSheets_cons_fault {sh : Sheet} (rest : List Sheet) (keys : List MKey)
    (hp : isProgressSheet sh.title = true) (hf : faulted.contains sh.title = true) :
    mergeSheets b2c c2c ts faulted keys (sh :: rest) =
      (sh :: (mergeSheets b2c c2c ts faulted keys rest).1,
       (mergeSheets b2c c2c ts faulted keys rest).2.1,
       sh.title :: (mergeSheets b2c c2c ts faulted keys rest).2.2) := by
  simp only [mergeSheets]
  rw [if_pos hp, if_pos hf]

theorem mergeSheets_cons_proc {sh : Sheet} (rest : List Sheet) (keys : List MKey)
    (hp : isProgressSheet sh.title = true) (hf : faulted.contains sh.title = false) :
    mergeSheets b2c c2c ts faulted keys (sh :: rest) =
      ({ sh with rows := applyUpdates sh.rows (processRows b2c c2c ts keys sh.rows 0).2.2 } ::
         (mergeSheets b2c c2c ts faulted (processRows b2c c2c ts keys sh.rows 0).1 rest).1,
       (processRows b2c c2c ts keys sh.rows 0).2.1 ++
         (mergeSheets b2c c2c ts faulted (processRows b2c c2c ts keys sh.rows 0).1 rest).2.1,
       (mergeSheets b2c c2c ts faulted (processRows b2c c2c ts keys sh.rows 0).1 rest).2.2) := by
  simp only [mergeSheets]
  rw [if_pos hp, if_neg (by rw [hf]; exact Bool.false_ne_true)]

theorem mergeSheets_fst_nonprog {sh : Sheet} (rest : List Sheet) (keys : List MKey)
    (hp : isProgressSheet sh.title = false) :
    (mergeSheets b2c c2c ts faulted keys (sh :: rest)).1 =
      sh :: (mergeSheets b2c c2c ts faulted keys rest).1 := by
  rw [mergeSheets_cons_nonprog b2c c2c ts faulted rest keys hp]

theorem mergeSheets_app_nonprog {sh : Sheet} (rest : List Sheet) (keys : List MKey)
    (hp : isProgressSheet sh.title = false) :
    (mergeSheets b2c c2c ts faulted keys (sh :: rest)).2.1 =
      (mergeSheets b2c c2c ts faulted keys rest).2.1 := by
  rw [mergeSheets_cons_nonprog b2c c2c ts faulted rest keys hp]

theorem mergeSheets_fst_fault {sh : Sheet} (rest : List Sheet) (keys : List MKey)
    (hp : isProgressSheet sh.title = true) (hf : faulted.contains sh.title = true) :
    (mergeSheets b2c c2c ts faulted keys (sh :: rest)).1 =
      sh :: (mergeSheets b2c c2c ts faulted keys rest).1 := by
  rw [mergeSheets_cons_fault b2c c2c ts faulted rest keys hp hf]

theorem mergeSheets_app_fault {sh : Sheet} (rest : List Sheet) (keys : List MKey)
    (hp : isProgressSheet sh.title = true) (hf : faulted.contains sh.title = true) :
    (mergeSheets b2c c2c ts faulted keys (sh :: rest)).2.1 =
      (mergeSheets b2c c2c ts faulted keys rest).2.1 := by
  rw [mergeSheets_cons_fault b2c c2c ts faulted rest keys hp hf]

theorem mergeSheets_fst_proc {sh : Sheet} (rest : List Sheet) (keys : List MKey)
    (hp : isProgressSheet sh.title = true) (hf : faulted.contains sh.title = false) :
    (mergeSheets b2c c2c ts faulted keys (sh :: rest)).1 =
      { sh with rows := applyUpdates sh.rows (processRows b2c c2c ts keys sh.rows 0).2.2 } ::
        (mergeSheets b2c c2c ts faulted (processRows b2c c2c ts keys sh.rows 0).1 rest).1 := by
  rw [mergeSheets_cons_proc b2c c2c ts faulted rest keys hp hf]

theorem mergeSheets_app_proc {sh : Sheet} (rest : List Sheet) (keys : List MKey)
    (hp : isProgressSheet sh.title = true) (hf : faulted.contains sh.title = false) :
    (mergeSheets b2c c2c ts faulted keys (sh :: rest)).2.1 =
      (processRows b2c c2c ts keys sh.rows 0).2.1 ++
        (mergeSheets b2c c2c ts faulted (processRows b2c c2c ts keys sh.rows 0).1 rest).2.1 := by
  rw [mergeSheets_cons_proc b2c c2c ts faulted rest keys hp hf]

theorem mergeSheets_done :
    ∀ (sheets : List Sheet) (keys : List MKey) (sh' : Sheet),
      sh' ∈ (mergeSheets b2c c2c ts faulted keys sheets).1 →
      isProgressSheet sh'.title = true → faulted.contains sh'.title = false →
      ∀ r ∈ sh'.rows, skipRow r = true
  | [], keys, sh' => by simp [mergeSheets]
  | sh :: rest, keys, sh' => by
    intro hmem hprog hfault
    by_cases hp : isProgressSheet sh.title = true
    · by_cases hf : faulted.contains sh.title = true
      · rw [mergeSheets_fst_fault b2c c2c ts faulted rest keys hp hf] at hmem
        rcases List.mem_cons.1 hmem with rfl | hmem
        · rw [hf] at hfault; cases hfault
        · exact mergeSheets_done rest keys sh' hmem hprog hfault
      · rw [mergeSheets_fst_proc b2c c2c ts faulted rest keys hp
            (by simpa using hf)] at hmem
        rcases List.mem_cons.1 hmem with rfl | hmem
        · intro r hr
          exact done_after_process b2c c2c ts sh.rows keys r hr
        · exact mergeSheets_done rest _ sh' hmem hprog hfault
    · rw [mergeSheets_fst_nonprog b2c c2c ts faulted rest keys
          (by simpa using hp)] at hmem
      rcases List.mem_cons.1 hmem with rfl | hmem
      · rw [hprog] at hp; cases hp rfl
      · exact mergeSheets_done rest keys sh' hmem hprog hfault

theorem mergeSheets_of_done :
    ∀ (sheets : List Sheet) (keys : List MKey),
      (∀ sh ∈ sheets, isProgressSheet sh.title = true →
        faulted.contains sh.title = false → ∀ r ∈ sh.rows, skipRow r = true) →
      (mergeSheets b2c c2c ts faulted keys sheets).1 = sheets ∧
        (mergeSheets b2c c2c ts faulted keys sheets).2.1 = []
  | [], keys, _ => by simp [mergeSheets]
  | sh :: rest, keys, h => by
    have hrest : ∀ s ∈ rest, isProgressSheet s.title = true →
        faulted.contains s.title = false → ∀ r ∈ s.rows, skipRow r = true :=
      fun s hs => h s (List.mem_cons_of_mem _ hs)
    by_cases hp : isProgressSheet sh.title = true
    · by_cases hf : faulted.contains sh.title = true
      · have ih := mergeSheets_of_done rest keys hrest
        rw [mergeSheets_fst_fault b2c c2c ts faulted rest keys hp hf,
          mergeSheets_app_fault b2c c2c ts faulted rest keys hp hf, ih.1, ih.2]
        exact ⟨rfl, rfl⟩
      · have hdone : ∀ r ∈ sh.rows, skipRow r = true :=
          h sh (List.mem_cons_self _ _) hp (by simpa using hf)
        have hproc := processRows_of_done b2c c2c ts sh.rows keys 0 hdone
        have ih := mergeSheets_of_done rest keys hrest
        rw [mergeSheets_fst_proc b2c c2c ts faulted rest keys hp (by simpa using hf),
          mergeSheets_app_proc b2c c2c ts faulted rest keys hp (by simpa using hf),
          hproc]
        constructor
        · show { sh with rows := applyUpdates sh.rows [] } ::
            (mergeSheets b2c c2c ts faulted keys rest).1 = sh :: rest
          rw [applyUpdates_nil, ih.1]
        · show ([] : List Row) ++ (mergeSheets b2c c2c ts faulted keys rest).2.1 = []
          rw [List.nil_append, ih.2]
    · have ih := mergeSheets_of_done rest keys hrest
      rw [mergeSheets_fst_nonprog b2c c2c ts faulted rest keys (by simpa using hp),
        mergeSheets_app_nonprog b2c c2c ts faulted rest keys (by simpa using hp),
        ih.1, ih.2]
      exact ⟨rfl, rfl⟩

theorem findSheet_mergeSheets_master :
    ∀ (sheets : List Sheet) (keys : List MKey),
      findSheet (mergeSheets b2c c2c ts faulted keys sheets).1 masterTitle =
        findSheet sheets masterTitle
  | [], keys => by simp [mergeSheets]
  | sh :: rest, keys => by
    rw [findSheet_cons sh rest masterTitle]
    by_cases hp : isProgressSheet sh.title = true
    · have hne : (sh.title == masterTitle) = false := progress_ne_master hp
      rw [if_neg (by rw [hne]; exact Bool.false_ne_true)]
      by_cases hf : faulted.contains sh.title = true
      · rw [mergeSheets_fst_fault b2c c2c ts faulted rest keys hp hf, findSheet_cons,
          if_neg (by rw [hne]; exact Bool.false_ne_true)]
        exact findSheet_mergeSheets_master rest keys
      · rw [mergeSheets_fst_proc b2c c2c ts faulted rest keys hp (by simpa using hf),
          findSheet_cons, if_neg (by rw [hne]; exact Bool.false_ne_true)]
        exact findSheet_mergeSheets_master rest _
    · rw [mergeSheets_fst_nonprog b2c c2c ts faulted rest keys (by simpa using hp),
        findSheet_cons]
      by_cases h0 : (sh.title == masterTitle) = true
      · rw [if_pos h0]
        rw [if_pos h0]
      · rw [if_neg h0]
        rw [if_neg h0]
        exact findSheet_mergeSheets_master rest keys

end MergeSheets

section Pointwise

variable (b2c c2c : String → String) (ts : String) (faulted : List String)

/-- Positional description of the sheet loop: the sheet at position `j`
keeps its title, and when it is a readable progress sheet each of its
rows is kept as is when the skip predicate holds and flagged `"1"`
otherwise. -/
theorem mergeSheets_pointwise :
    ∀ (sheets : List Sheet) (keys : List MKey) (j : Nat) (sh : Sheet),
      sheets[j]? = some sh →
      ∃ sh', (mergeSheets b2c c2c ts faulted keys sheets).1[j]? = some sh' ∧
        sh'.title = sh.title ∧
        (isProgressSheet sh.title = true → faulted.contains sh.title = false →
          ∀ (i : Nat) (r : Row), sh.rows[i]? = some r →
            sh'.rows[i]? = some (if skipRow r = true then r else setFlag r))
  | [], keys, j, sh => by simp
  | sh0 :: rest, keys, j, sh => by
    intro hj
    by_cases hp : isProgressSheet sh0.title = true
    · by_cases hf : faulted.contains sh0.title = true
      · rw [mergeSheets_fst_fault b2c c2c ts faulted rest keys hp hf]
        cases j with
        | zero =>
          simp only [List.getElem?_cons_zero] at hj ⊢
          cases hj
          refine ⟨sh0, rfl, rfl, ?_⟩
          intro _ hfault
          rw [hf] at hfault
          cases hfault
        | succ j' =>
          simp only [List.getElem?_cons_succ] at hj ⊢
          exact mergeSheets_pointwise rest keys j' sh hj
      · rw [mergeSheets_fst_proc b2c c2c ts faulted rest keys hp (by simpa using hf)]
        cases j with
        | zero =>
          simp only [List.getElem?_cons_zero] at hj ⊢
          cases hj
          refine ⟨_, rfl, rfl, ?_⟩
          intro _ _ i r hi
          show (applyUpdates sh0.rows (processRows b2c c2c ts keys sh0.rows 0).2.2)[i]? = _
          rw [getElem?_applyUpdates]
          by_cases hmem : i ∈ (processRows b2c c2c ts keys sh0.rows 0).2.2
          · rcases (processRows_upds_mem b2c c2c ts sh0.rows keys 0 i).1
              (by simpa using hmem) with ⟨r', hr', hsk⟩
            rw [hi] at hr'
            cases hr'
            rw [if_pos hmem, hi, if_neg (by rw [hsk]; exact Bool.false_ne_true)]
            rfl
          · have hsk : skipRow r = true := by
              cases hcase : skipRow r with
              | true => rfl
              | false =>
                exfalso
                apply hmem
                have := (processRows_upds_mem b2c c2c ts sh0.rows keys 0 i).2 ⟨r, hi, hcase⟩
                simpa using this
            rw [if_neg hmem, hi, if_pos hsk]
        | succ j' =>
          simp only [List.getElem?_cons_succ] at hj ⊢
          exact mergeSheets_pointwise rest _ j' sh hj
    · rw [mergeSheets_fst_nonprog b2c c2c ts faulted rest keys (by simpa using hp)]
      cases j with
      | zero =>
        simp only [List.getElem?_cons_zero] at hj ⊢
        cases hj
        refine ⟨sh0, rfl, rfl, ?_⟩
        intro hprog
        rw [hprog] at hp
        cases hp rfl
      | succ j' =>
        simp only [List.getElem?_cons_succ] at hj ⊢
        exact mergeSheets_pointwise rest keys j' sh hj

end Pointwise

theorem setFirstRows_append :
    ∀ (pre : List Sheet) (sh : Sheet) (post : List Sheet) (t : String) (rows : List Row),
      (∀ s ∈ pre, (s.title == t) = false) → (sh.title == t) = true →
      setFirstRows (pre ++ sh :: post) t rows = pre ++ { sh with rows := rows } :: post
  | [], sh, post, t, rows => by
    intro _ hsh
    simp only [List.nil_append, setFirstRows, if_pos hsh]
  | s0 :: pre, sh, post, t, rows => by
    intro hpre hsh
    have h0 : (s0.title == t) = false := hpre s0 (List.mem_cons_self _ _)
    have hrest : ∀ s ∈ pre, (s.title == t) = false :=
      fun s hs => hpre s (List.mem_cons_of_mem _ hs)
    rw [List.cons_append]
    simp only [setFirstRows]
    rw [if_neg (show ¬((s0.title == t) = true) by rw [h0]; exact Bool.false_ne_true)]
    rw [setFirstRows_append pre sh post t rows hrest hsh]
    rw [List.cons_append]

/-! ### Unfolding lemmas for `merge_weekly_to_master` -/

theorem merge_eq_of_no_master (st : Store) (ts : String)
    (hm : findSheet st.sheets masterTitle = none) :
    merge_weekly_to_master st ts = (st, ["master worksheet not found"]) := by
  simp only [merge_weekly_to_master, hm]

theorem merge_eq_of_faulted_master (st : Store) (ts : String) (mws : Sheet)
    (hm : findSheet st.sheets masterTitle = some mws)
    (hf : st.faulted.contains masterTitle = true) :
    merge_weekly_to_master st ts = (st, ["master worksheet read failed"]) := by
  simp only [merge_weekly_to_master, hm]
  rw [if_pos hf]

theorem merge_eq_of_master (st : Store) (ts : String) (mws : Sheet)
    (hm : findSheet st.sheets masterTitle = some mws)
    (hf : st.faulted.contains masterTitle = false) :
    merge_weekly_to_master st ts =
      ({ st with
          sheets := setFirstRows (mergeParts st ts mws).1 masterTitle
            (mws.rows ++ (mergeParts st ts mws).2.1) },
       (mergeParts st ts mws).2.2) := by
  simp only [merge_weekly_to_master, mergeParts, hm]
  rw [if_neg (by rw [hf]; exact Bool.false_ne_true)]

theorem merge_result_faulted (st : Store) (ts : String) :
    (merge_weekly_to_master st ts).1.faulted = st.faulted := by
  cases hm : findSheet st.sheets masterTitle with
  | none => rw [merge_eq_of_no_master st ts hm]
  | some mws =>
    cases hf : st.faulted.contains masterTitle with
    | true => rw [merge_eq_of_faulted_master st ts mws hm hf]
    | false => rw [merge_eq_of_master st ts mws hm hf]

theorem findSheet_mergeParts (st : Store) (ts : String) (mws : Sheet) :
    findSheet (mergeParts st ts mws).1 masterTitle =
      findSheet st.sheets masterTitle := by
  rw [mergeParts]
  exact findSheet_mergeSheets_master _ _ _ _ _ _

theorem merge_result_master (st : Store) (ts : String) (mws : Sheet)
    (hm : findSheet st.sheets masterTitle = some mws)
    (hf : st.faulted.contains masterTitle = false) :
    ∃ mws2 : Sheet,
      findSheet (merge_weekly_to_master st ts).1.sheets masterTitle = some mws2 := by
  rw [merge_eq_of_master st ts mws hm hf]
  refine ⟨_, findSheet_setFirstRows_self _ masterTitle _ mws ?_⟩
  rw [findSheet_mergeParts]
  exact hm

/-- After a merge run (with a readable master sheet), every readable
progress sheet consists of rows satisfying the skip predicate. -/
theorem merge_result_done (st : Store) (ts : String) (mws : Sheet)
    (hm : findSheet st.sheets masterTitle = some mws)
    (hf : st.faulted.contains masterTitle = false) :
    ∀ sh ∈ (merge_weekly_to_master st ts).1.sheets,
      isProgressSheet sh.title = true → st.faulted.contains sh.title = false →
      ∀ r ∈ sh.rows, skipRow r = true := by
  rw [merge_eq_of_master st ts mws hm hf]
  intro sh hmem hprog hfault
  rcases mem_setFirstRows _ masterTitle _ sh hmem with h | ⟨sh0, _, ht, heq⟩
  · rw [mergeParts] at h
    exact mergeSheets_done _ _ _ _ _ _ sh h hprog hfault
  · exfalso
    have htitle : sh.title = masterTitle := by
      rw [heq]
      simpa using ht
    rw [htitle, isProgressSheet_masterTitle] at hprog
    cases hprog

/-- A merge run on a store whose readable progress sheets contain only
skip-predicate rows changes nothing. -/
theorem merge_of_store_done (st : Store) (ts : String) (mws : Sheet)
    (hm : findSheet st.sheets masterTitle = some mws)
    (hf : st.faulted.contains masterTitle = false)
    (hdone : ∀ sh ∈ st.sheets, isProgressSheet sh.title = true →
      st.faulted.contains sh.title = false → ∀ r ∈ sh.rows, skipRow r = true) :
    (merge_weekly_to_master st ts).1 = st := by
  rw [merge_eq_of_master st ts mws hm hf]
  have h2 := mergeSheets_of_done (batch_to_center (readData st "Batches"))
    (center_to_country (readData st "Centers")) ts st.faulted st.sheets
    (masterKeys mws.rows) hdone
  have h21 : (mergeParts st ts mws).1 = st.sheets := h2.1
  have h22 : (mergeParts st ts mws).2.1 = [] := h2.2
  show { st with
      sheets := setFirstRows (mergeParts st ts mws).1 masterTitle
        (mws.rows ++ (mergeParts st ts mws).2.1) } = st
  rw [h21, h22, List.append_nil, setFirstRows_findSheet_rows st.sheets masterTitle mws hm]

/-- C3: `mergeAll` is idempotent — for every store state, running
`merge_weekly_to_master` and then immediately running it again with no
new submissions in between returns the store of the first run
unchanged: the master table gains no rows and no synced flag changes
during the second run. -/
theorem c3_merge_idempotent (st : Store) (ts1 ts2 : String) :
    (merge_weekly_to_master (merge_weekly_to_master st ts1).1 ts2).1 =
      (merge_weekly_to_master st ts1).1 := by
  cases hm : findSheet st.sheets masterTitle with
  | none =>
    rw [merge_eq_of_no_master st ts1 hm]
    rw [merge_eq_of_no_master st ts2 hm]
  | some mws =>
    cases hf : st.faulted.contains masterTitle with
    | true =>
      rw [merge_eq_of_faulted_master st ts1 mws hm hf]
      rw [merge_eq_of_faulted_master st ts2 mws hm hf]
    | false =>
      obtain ⟨mws2, hm2⟩ := merge_result_master st ts1 mws hm hf
      have hf2 : (merge_weekly_to_master st ts1).1.faulted.contains masterTitle = false := by
        rw [merge_result_faulted]
        exact hf
      have hdone := merge_result_done st ts1 mws hm hf
      exact merge_of_store_done _ ts2 mws2 hm2 hf2
        (fun sh hs hp hfa => hdone sh hs hp (by rwa [merge_result_faulted] at hfa))

/-! ### Remaining support lemmas -/

theorem retryLoop_fail_step (post : Nat → Except String Nat)
    (fuel attempt backoff : Nat) (h : isOk200 (post attempt) = false) :
    retryLoop post (fuel + 1) attempt backoff =
      ((retryLoop post fuel (attempt + 1) (backoff * 2)).1,
       (retryLoop post fuel (attempt + 1) (backoff * 2)).2.1 + 1,
       backoff :: (retryLoop post fuel (attempt + 1) (backoff * 2)).2.2) := by
  cases hp : post attempt with
  | error e => simp [retryLoop, hp]
  | ok s =>
    have hs : ¬(s = 200) := by
      intro hcon
      rw [hcon] at hp
      rw [hp] at h
      simp [isOk200] at h
    simp only [retryLoop, hp]
    rw [if_neg hs]

theorem seqOption_isSome {α : Type} :
    ∀ l : List (Option α), (∀ o ∈ l, o.isSome = true) → (seqOption l).isSome = true
  | [], _ => rfl
  | o :: l, h => by
    rcases Option.isSome_iff_exists.1 (h o (List.mem_cons_self _ _)) with ⟨a, ha⟩
    rcases Option.isSome_iff_exists.1
      (seqOption_isSome l (fun x hx => h x (List.mem_cons_of_mem _ hx))) with ⟨as', has⟩
    simp [seqOption, ha, has]

/-! ### Claim theorems -/

/-- C1: the end-to-end append contract fails on the code.  The source
row `c1Row` is well-formed and unsynced, its batch maps to the known
center `Alpha` and that center to the known country `CountryX`, and its
dedup key `(Alpha, B100, Math, 3)` matches no master row's
`(center, batch_id, subject, week)` — the only master row is for week
`"9"`.  Yet `merge_weekly_to_master` appends nothing: because the code
reads the existing-row week from index 5 (the faculty column, here
`"3"`), it wrongly classifies the row as a duplicate, merely setting
its synced flag. -/
theorem c1_code_bug_eval :
    (skipRow c1Row = false ∧
     dictGet (batchPairs [["x", "Alpha", "B100"]]) "B100" = some "Alpha" ∧
     dictGet (centerPairs [["x", "CountryX", "Alpha"]]) "Alpha" = some "CountryX" ∧
     (∀ m ∈ c1Master, specKey? m ≠ some ("Alpha", "B100", "Math", "3"))) ∧
    masterRowsOf (merge_weekly_to_master c1Store "TS").1 = c1Master ∧
    (findSheet (merge_weekly_to_master c1Store "TS").1.sheets "Alpha_Progress").map
      Sheet.rows =
      some [["2024-01-10 09:00:00", "B100", "Math", "F.Smith", "Ch1, Ch2", "3", "1"]] := by
  decide

/-- C2: the dedup invariant fails on the code.  `c2Store`'s master table
is duplicate-free in the composite key `(center, batch_id, subject,
week)` (read off the 8-column layout via `specKey?`), yet a single
`merge_weekly_to_master` run appends a row carrying the same key as the
existing master row, because the duplicate check compares the source
week against master index 5 (the faculty column) instead of index 7. -/
theorem c2_code_bug_eval :
    ((c2Master.filterMap specKey?).Nodup) ∧
    masterRowsOf (merge_weekly_to_master c2Store "TS").1 =
      c2Master ++ [["TS", "CountryX", "Alpha", "B100", "Math", "F.Smith", "Ch1, Ch2", "3"]] ∧
    ¬ ((masterRowsOf (merge_weekly_to_master c2Store "TS").1).filterMap specKey?).Nodup := by
  decide

/-- C4: healing fails on the code.  `c4Row` is unsynced and its dedup
key `(Alpha, B100, Math, 3)` already has a matching master row in
`c4Master`; after the merge the row's flag is set as the claim says,
but a duplicate master row is nevertheless appended (the lookup that
should detect the existing counterpart reads the master faculty column
as the week). -/
theorem c4_code_bug_eval :
    (skipRow c4Row = false ∧
     (∃ m ∈ c4Master, specKey? m = some ("Alpha", "B100", "Math", "3"))) ∧
    (findSheet (merge_weekly_to_master c4Store "TS").1.sheets "Alpha_Progress").map
      Sheet.rows = some [["t2", "B100", "Math", "NewFac", "Ch9", "3", "1"]] ∧
    masterRowsOf (merge_weekly_to_master c4Store "TS").1 =
      c4Master ++ [["TS", "CountryX", "Alpha", "B100", "Math", "NewFac", "Ch9", "3"]] ∧
    ¬ ((masterRowsOf (merge_weekly_to_master c4Store "TS").1).filterMap specKey?).Nodup := by
  decide

/-- C6: audit correctness fails on the code.  `c6Master` contains a
week-5 master row for batch `B1` (week field at index 7 equals `"5"`),
yet the app2 admin check still reports `B1` as missing for week 5,
because it compares `str(week_number)` against master index 5 — the
faculty column. -/
theorem c6_code_bug_eval :
    (∃ m ∈ c6Master, cell m 3 = "B1" ∧ pyStrip (cell m 7) = toString 5) ∧
    findMissing_app2 c6Batches c6Centers c6Master 5 =
      [⟨"CoX", "C1", "B1", "c1@x.com"⟩] := by
  decide

/-- C5 counterexample: a 7-column row whose synced flag reads `"True"`
is case-insensitively equal to `"true"`, so per the claim it should be
skipped and left untouched — but the code's membership test
`strip() in ["1", "TRUE", "true"]` does not match `"True"`, so the row
is processed: its flag is overwritten with `"1"` and a master row is
appended for it. -/
theorem c5_skip_counterexample :
    pyLower "True" = "true" ∧
    (findSheet (merge_weekly_to_master c5Store "TS").1.sheets "A_Progress").map
      Sheet.rows = some [["t", "B1", "Math", "F", "Ch", "3", "1"]] ∧
    masterRowsOf (merge_weekly_to_master c5Store "TS").1 =
      [["TS", "Unknown Country", "Unknown Center", "B1", "Math", "F", "Ch", "3"]] := by
  decide

/-- C5 (amended): during a merge with a readable master sheet, a row of
a readable progress sheet is left untouched iff it has fewer than 7
columns or its flag cell, after stripping whitespace, is exactly one of
`"1"`, `"TRUE"`, `"true"` (the `skipRow` predicate); every other row is
processed, i.e. its flag cell is overwritten with `"1"`.  Moreover if
every row of every readable progress sheet satisfies the skip
predicate, the master table is unchanged. -/
theorem c5_skip_amended :
    (∀ (st : Store) (ts : String) (mws : Sheet) (j i : Nat) (sh : Sheet) (r : Row),
      findSheet st.sheets masterTitle = some mws →
      st.faulted.contains masterTitle = false →
      st.sheets[j]? = some sh → isProgressSheet sh.title = true →
      st.faulted.contains sh.title = false → sh.rows[i]? = some r →
      ∃ sh', (merge_weekly_to_master st ts).1.sheets[j]? = some sh' ∧
        sh'.title = sh.title ∧
        sh'.rows[i]? = some (if skipRow r = true then r else setFlag r)) ∧
    (∀ (st : Store) (ts : String),
      (∀ sh ∈ st.sheets, isProgressSheet sh.title = true →
        st.faulted.contains sh.title = false → ∀ r ∈ sh.rows, skipRow r = true) →
      masterRowsOf (merge_weekly_to_master st ts).1 = masterRowsOf st) := by
  constructor
  · intro st ts mws j i sh r hm hmf hj hprog hfault hi
    rw [merge_eq_of_master st ts mws hm hmf]
    obtain ⟨sh', hj', htitle, hrows⟩ :=
      mergeSheets_pointwise (batch_to_center (readData st "Batches"))
        (center_to_country (readData st "Centers")) ts st.faulted st.sheets
        (masterKeys mws.rows) j sh hj
    refine ⟨sh', ?_, htitle, hrows hprog hfault i r hi⟩
    show (setFirstRows (mergeParts st ts mws).1 masterTitle
      (mws.rows ++ (mergeParts st ts mws).2.1))[j]? = some sh'
    apply getElem?_setFirstRows_ne
    · exact hj'
    · rw [htitle]
      exact progress_ne_master hprog
  · intro st ts hdone
    cases hm : findSheet st.sheets masterTitle with
    | none => rw [merge_eq_of_no_master st ts hm]
    | some mws =>
      cases hmf : st.faulted.contains masterTitle with
      | true => rw [merge_eq_of_faulted_master st ts mws hm hmf]
      | false => rw [merge_of_store_done st ts mws hm hmf hdone]

/-- C5 witness: the amended skip contract applied to a concrete store
whose single progress row is already flagged `"1"`. -/
theorem c5_skip_witness :
    ∃ sh', (merge_weekly_to_master c5DoneStore "TS").1.sheets[1]? = some sh' ∧
      sh'.title = (⟨"A_Progress", [c5DoneRow]⟩ : Sheet).title ∧
      sh'.rows[0]? = some (if skipRow c5DoneRow = true then c5DoneRow
        else setFlag c5DoneRow) :=
  c5_skip_amended.1 c5DoneStore "TS" ⟨masterTitle, []⟩ 1 0 ⟨"A_Progress", [c5DoneRow]⟩
    c5DoneRow (by decide) (by decide) (by decide) (by decide) (by decide) (by decide)

/-- C7 counterexample: against a target that always answers HTTP 500,
`safe_post_with_retry` does not behave as "3 attempts with delays 2, 4
then failure": it also sleeps 8 time units after the third (final)
failed attempt before returning. -/
theorem c7_retry_counterexample :
    safe_post_with_retry (fun _ => Except.ok 500) 3 ≠ (false, 3, [2, 4]) ∧
    safe_post_with_retry (fun _ => Except.ok 500) 3 = (false, 3, [2, 4, 8]) := by
  decide

/-- C7 (amended): for every notification target that fails on every
attempt (the code treats any response with status other than 200, and
any transport error, as a failure), `safe_post_with_retry` with the
default 3 retries makes exactly 3 attempts, sleeps 2, 4 and 8 time
units (the backoff doubles each time and the final sleep happens after
the last attempt), and returns a definitive failure result — it never
propagates an exception. -/
theorem c7_retry_amended (post : Nat → Except String Nat)
    (h : ∀ n, isOk200 (post n) = false) :
    safe_post_with_retry post 3 = (false, 3, [2, 4, 8]) := by
  rw [safe_post_with_retry]
  rw [show (3 : Nat) = 2 + 1 from rfl, retryLoop_fail_step post 2 0 2 (h 0)]
  rw [show (2 : Nat) = 1 + 1 from rfl, retryLoop_fail_step post 1 1 (2 * 2) (h 1)]
  rw [show (1 : Nat) = 0 + 1 from rfl, retryLoop_fail_step post 0 2 (2 * 2 * 2) (h 2)]
  rfl

/-- C7 witness: the amended retry contract at a target that always
answers HTTP 404. -/
theorem c7_retry_witness :
    safe_post_with_retry (fun _ => Except.ok 404) 3 = (false, 3, [2, 4, 8]) :=
  c7_retry_amended (fun _ => Except.ok 404) (fun _ => rfl)

/-- C8: the submit contract.  If no sheet named `"<Center>_Progress"`
exists, `submit_to_progress_sheet` reports failure and returns the
store unchanged (no row appended, no table created).  If the sheet
exists, it reports success and the store differs only in that sheet,
which gains exactly one appended 7-column row
`[timestamp, batch, subject, faculty, chapters joined with ", ",
week as text, "0"]` with the synced flag cell `"0"`. -/
theorem c8_submit_contract (st : Store) (center batchId subject faculty : String)
    (chapters : List String) (week : Nat) (ts : String) :
    (findSheet st.sheets (center ++ "_Progress") = none →
      submit_to_progress_sheet st center batchId subject faculty chapters week ts =
        (st, false)) ∧
    (∀ sh : Sheet, findSheet st.sheets (center ++ "_Progress") = some sh →
      (submit_to_progress_sheet st center batchId subject faculty chapters week ts).2 =
        true ∧
      ∃ pre post : List Sheet,
        st.sheets = pre ++ sh :: post ∧
        (∀ s ∈ pre, (s.title == center ++ "_Progress") = false) ∧
        (submit_to_progress_sheet st center batchId subject faculty chapters week
            ts).1.sheets =
          pre ++ { sh with rows := sh.rows ++
            [[ts, batchId, subject, faculty, String.intercalate ", " chapters,
              toString week, "0"]] } :: post ∧
        ([ts, batchId, subject, faculty, String.intercalate ", " chapters,
          toString week, "0"] : Row).length = 7 ∧
        cell [ts, batchId, subject, faculty, String.intercalate ", " chapters,
          toString week, "0"] 6 = "0" ∧
        (submit_to_progress_sheet st center batchId subject faculty chapters week
            ts).1.faulted = st.faulted) := by
  constructor
  · intro h
    simp only [submit_to_progress_sheet, h]
  · intro sh hsh
    have hsub : submit_to_progress_sheet st center batchId subject faculty chapters
        week ts =
        ({ st with
            sheets := setFirstRows st.sheets (center ++ "_Progress")
              (sh.rows ++ [[ts, batchId, subject, faculty,
                String.intercalate ", " chapters, toString week, "0"]]) },
         true) := by
      simp only [submit_to_progress_sheet, hsh]
    rcases List.find?_eq_some.1 hsh with ⟨hps, pre, post, heq, hpre⟩
    have hpre' : ∀ s ∈ pre, (s.title == center ++ "_Progress") = false := by
      intro s hs
      have := hpre s hs
      simpa using this
    refine ⟨by rw [hsub], pre, post, heq, hpre', ?_, rfl, rfl, by rw [hsub]⟩
    rw [hsub]
    show setFirstRows st.sheets (center ++ "_Progress") _ = _
    rw [heq]
    exact setFirstRows_append pre sh post _ _ hpre' hps

/-- C8 witness: the submit contract applied to a concrete store that
contains the sheet `Alpha_Progress`. -/
theorem c8_submit_witness :
    (submit_to_progress_sheet c8Store "Alpha" "B1" "Math" "F" ["Ch1", "Ch2"] 3 "TS").2 =
      true ∧
    ∃ pre post : List Sheet,
      c8Store.sheets = pre ++ c8Sheet :: post ∧
      (∀ s ∈ pre, (s.title == "Alpha" ++ "_Progress") = false) ∧
      (submit_to_progress_sheet c8Store "Alpha" "B1" "Math" "F" ["Ch1", "Ch2"] 3
          "TS").1.sheets =
        pre ++ { c8Sheet with rows := c8Sheet.rows ++
          [["TS", "B1", "Math", "F", String.intercalate ", " ["Ch1", "Ch2"],
            toString 3, "0"]] } :: post ∧
      (["TS", "B1", "Math", "F", String.intercalate ", " ["Ch1", "Ch2"],
        toString 3, "0"] : Row).length = 7 ∧
      cell ["TS", "B1", "Math", "F", String.intercalate ", " ["Ch1", "Ch2"],
        toString 3, "0"] 6 = "0" ∧
      (submit_to_progress_sheet c8Store "Alpha" "B1" "Math" "F" ["Ch1", "Ch2"] 3
          "TS").1.faulted = c8Store.faulted :=
  (c8_submit_contract c8Store "Alpha" "B1" "Math" "F" ["Ch1", "Ch2"] 3 "TS").2
    c8Sheet (by decide)

/-- C9: per-table isolation and sentinel merging.  In a store whose
sheet list contains a faulted progress sheet `Fail_Progress` *before* a
readable sheet `Good_Progress`, the merge records the failure in its
error report, leaves the faulted sheet untouched, and still processes
the later sheet; its single well-formed unsynced row, whose batch id is
unknown to the batch lookup (and `"Unknown Center"` unknown to the
center lookup), is not dropped: it is merged into the master table with
the sentinel values `"Unknown Center"` / `"Unknown Country"` and its
flag is set. -/
theorem c9_isolation_sentinels (bd cd M Frows : List Row) (r : Row) (ts : String)
    (hlen : r.length = 7) (hflag : syncedFlag (cell r 6) = false)
    (hbatch : dictGet (batchPairs bd) (cell r 1) = none)
    (hcenter : dictGet (centerPairs cd) "Unknown Center" = none)
    (hkey : ("Unknown Center", cell r 1, cell r 2, cell r 5) ∉ masterKeys M) :
    merge_weekly_to_master
        ⟨[⟨"Batches", bd⟩, ⟨"Centers", cd⟩, ⟨masterTitle, M⟩,
          ⟨"Fail_Progress", Frows⟩, ⟨"Good_Progress", [r]⟩],
         ["Fail_Progress"]⟩ ts =
      (⟨[⟨"Batches", bd⟩, ⟨"Centers", cd⟩,
         ⟨masterTitle, M ++ [[ts, "Unknown Country", "Unknown Center"] ++
           (r.drop 1).take 5]⟩,
         ⟨"Fail_Progress", Frows⟩, ⟨"Good_Progress", [setFlag r]⟩],
        ["Fail_Progress"]⟩,
       ["Fail_Progress"]) := by
  have hskip : skipRow r = false := by
    simp [skipRow, hlen, hflag]
  have hb2c : batch_to_center bd (cell r 1) = "Unknown Center" := by
    simp only [batch_to_center, hbatch]
    rfl
  have hc2c : center_to_country cd "Unknown Center" = "Unknown Country" := by
    simp only [center_to_country, hcenter]
    rfl
  have hproc : processRows (batch_to_center bd) (center_to_country cd) ts
      (masterKeys M) [r] 0 =
      (("Unknown Center", cell r 1, cell r 2, cell r 5) :: masterKeys M,
       [[ts, "Unknown Country", "Unknown Center"] ++ (r.drop 1).take 5], [0]) := by
    simp only [processRows]
    rw [if_neg (show ¬(skipRow r = true) by rw [hskip]; exact Bool.false_ne_true)]
    rw [hb2c, hc2c, if_neg hkey]
  have h5 : mergeSheets (batch_to_center bd) (center_to_country cd) ts
      ["Fail_Progress"] (masterKeys M) [⟨"Good_Progress", [r]⟩] =
      ([⟨"Good_Progress", [setFlag r]⟩],
       [[ts, "Unknown Country", "Unknown Center"] ++ (r.drop 1).take 5], []) := by
    have e : mergeSheets (batch_to_center bd) (center_to_country cd) ts
        ["Fail_Progress"] (masterKeys M) [⟨"Good_Progress", [r]⟩] =
        (⟨"Good_Progress",
           applyUpdates [r] (processRows (batch_to_center bd)
             (center_to_country cd) ts (masterKeys M) [r] 0).2.2⟩ ::
          (mergeSheets (batch_to_center bd) (center_to_country cd) ts
            ["Fail_Progress"] (processRows (batch_to_center bd)
              (center_to_country cd) ts (masterKeys M) [r] 0).1 []).1,
         (processRows (batch_to_center bd) (center_to_country cd) ts
           (masterKeys M) [r] 0).2.1 ++
           (mergeSheets (batch_to_center bd) (center_to_country cd) ts
             ["Fail_Progress"] (processRows (batch_to_center bd)
               (center_to_country cd) ts (masterKeys M) [r] 0).1 []).2.1,
         (mergeSheets (batch_to_center bd) (center_to_country cd) ts
           ["Fail_Progress"] (processRows (batch_to_center bd)
             (center_to_country cd) ts (masterKeys M) [r] 0).1 []).2.2) :=
      mergeSheets_cons_proc _ _ _ _ _ _ rfl rfl
    rw [e, hproc]
    rfl
  have h4 : mergeSheets (batch_to_center bd) (center_to_country cd) ts
      ["Fail_Progress"] (masterKeys M)
      [⟨"Fail_Progress", Frows⟩, ⟨"Good_Progress", [r]⟩] =
      ([⟨"Fail_Progress", Frows⟩, ⟨"Good_Progress", [setFlag r]⟩],
       [[ts, "Unknown Country", "Unknown Center"] ++ (r.drop 1).take 5],
       ["Fail_Progress"]) := by
    have e : mergeSheets (batch_to_center bd) (center_to_country cd) ts
        ["Fail_Progress"] (masterKeys M)
        [⟨"Fail_Progress", Frows⟩, ⟨"Good_Progress", [r]⟩] =
        (⟨"Fail_Progress", Frows⟩ ::
          (mergeSheets (batch_to_center bd) (center_to_country cd) ts
            ["Fail_Progress"] (masterKeys M) [⟨"Good_Progress", [r]⟩]).1,
         (mergeSheets (batch_to_center bd) (center_to_country cd) ts
           ["Fail_Progress"] (masterKeys M) [⟨"Good_Progress", [r]⟩]).2.1,
         "Fail_Progress" ::
           (mergeSheets (batch_to_center bd) (center_to_country cd) ts
             ["Fail_Progress"] (masterKeys M) [⟨"Good_Progress", [r]⟩]).2.2) :=
      mergeSheets_cons_fault _ _ _ _ _ _ rfl rfl
    rw [e, h5]
  have h1 : mergeSheets (batch_to_center bd) (center_to_country cd) ts
      ["Fail_Progress"] (masterKeys M)
      [⟨"Batches", bd⟩, ⟨"Centers", cd⟩, ⟨masterTitle, M⟩,
       ⟨"Fail_Progress", Frows⟩, ⟨"Good_Progress", [r]⟩] =
      ([⟨"Batches", bd⟩, ⟨"Centers", cd⟩, ⟨masterTitle, M⟩,
        ⟨"Fail_Progress", Frows⟩, ⟨"Good_Progress", [setFlag r]⟩],
       [[ts, "Unknown Country", "Unknown Center"] ++ (r.drop 1).take 5],
       ["Fail_Progress"]) := by
    have e1 : mergeSheets (batch_to_center bd) (center_to_country cd) ts
        ["Fail_Progress"] (masterKeys M)
        [⟨"Batches", bd⟩, ⟨"Centers", cd⟩, ⟨masterTitle, M⟩,
         ⟨"Fail_Progress", Frows⟩, ⟨"Good_Progress", [r]⟩] =
        (⟨"Batches", bd⟩ ::
          (mergeSheets (batch_to_center bd) (center_to_country cd) ts
            ["Fail_Progress"] (masterKeys M)
            [⟨"Centers", cd⟩, ⟨masterTitle, M⟩, ⟨"Fail_Progress", Frows⟩,
             ⟨"Good_Progress", [r]⟩]).1,
         (mergeSheets (batch_to_center bd) (center_to_country cd) ts
           ["Fail_Progress"] (masterKeys M)
           [⟨"Centers", cd⟩, ⟨masterTitle, M⟩, ⟨"Fail_Progress", Frows⟩,
            ⟨"Good_Progress", [r]⟩]).2.1,
         (mergeSheets (batch_to_center bd) (center_to_country cd) ts
           ["Fail_Progress"] (masterKeys M)
           [⟨"Centers", cd⟩, ⟨masterTitle, M⟩, ⟨"Fail_Progress", Frows⟩,
            ⟨"Good_Progress", [r]⟩]).2.2) :=
      mergeSheets_cons_nonprog _ _ _ _ _ _ rfl
    have e2 : mergeSheets (batch_to_center bd) (center_to_country cd) ts
        ["Fail_Progress"] (masterKeys M)
        [⟨"Centers", cd⟩, ⟨masterTitle, M⟩, ⟨"Fail_Progress", Frows⟩,
         ⟨"Good_Progress", [r]⟩] =
        (⟨"Centers", cd⟩ ::
          (mergeSheets (batch_to_center bd) (center_to_country cd) ts
            ["Fail_Progress"] (masterKeys M)
            [⟨masterTitle, M⟩, ⟨"Fail_Progress", Frows⟩, ⟨"Good_Progress", [r]⟩]).1,
         (mergeSheets (batch_to_center bd) (center_to_country cd) ts
           ["Fail_Progress"] (masterKeys M)
           [⟨masterTitle, M⟩, ⟨"Fail_Progress", Frows⟩, ⟨"Good_Progress", [r]⟩]).2.1,
         (mergeSheets (batch_to_center bd) (center_to_country cd) ts
           ["Fail_Progress"] (masterKeys M)
           [⟨masterTitle, M⟩, ⟨"Fail_Progress", Frows⟩,
            ⟨"Good_Progress", [r]⟩]).2.2) :=
      mergeSheets_cons_nonprog _ _ _ _ _ _ rfl
    have e3 : mergeSheets (batch_to_center bd) (center_to_country cd) ts
        ["Fail_Progress"] (masterKeys M)
        [⟨masterTitle, M⟩, ⟨"Fail_Progress", Frows⟩, ⟨"Good_Progress", [r]⟩] =
        (⟨masterTitle, M⟩ ::
          (mergeSheets (batch_to_center bd) (center_to_country cd) ts
            ["Fail_Progress"] (masterKeys M)
            [⟨"Fail_Progress", Frows⟩, ⟨"Good_Progress", [r]⟩]).1,
         (mergeSheets (batch_to_center bd) (center_to_country cd) ts
           ["Fail_Progress"] (masterKeys M)
           [⟨"Fail_Progress", Frows⟩, ⟨"Good_Progress", [r]⟩]).2.1,
         (mergeSheets (batch_to_center bd) (center_to_country cd) ts
           ["Fail_Progress"] (masterKeys M)
           [⟨"Fail_Progress", Frows⟩, ⟨"Good_Progress", [r]⟩]).2.2) :=
      mergeSheets_cons_nonprog _ _ _ _ _ _ rfl
    rw [e1, e2, e3, h4]
  rw [merge_eq_of_master
      ⟨[⟨"Batches", bd⟩, ⟨"Centers", cd⟩, ⟨masterTitle, M⟩,
        ⟨"Fail_Progress", Frows⟩, ⟨"Good_Progress", [r]⟩], ["Fail_Progress"]⟩
      ts ⟨masterTitle, M⟩ rfl rfl]
  have hparts : mergeParts
      ⟨[⟨"Batches", bd⟩, ⟨"Centers", cd⟩, ⟨masterTitle, M⟩,
        ⟨"Fail_Progress", Frows⟩, ⟨"Good_Progress", [r]⟩],
       ["Fail_Progress"]⟩ ts ⟨masterTitle, M⟩ =
      ([⟨"Batches", bd⟩, ⟨"Centers", cd⟩, ⟨masterTitle, M⟩,
        ⟨"Fail_Progress", Frows⟩, ⟨"Good_Progress", [setFlag r]⟩],
       [[ts, "Unknown Country", "Unknown Center"] ++ (r.drop 1).take 5],
       ["Fail_Progress"]) := by
    show mergeSheets (batch_to_center bd) (center_to_country cd) ts
        ["Fail_Progress"] (masterKeys M)
        [⟨"Batches", bd⟩, ⟨"Centers", cd⟩, ⟨masterTitle, M⟩,
         ⟨"Fail_Progress", Frows⟩, ⟨"Good_Progress", [r]⟩] = _
    exact h1
  rw [hparts]
  rfl

/-- C9 witness: the isolation-and-sentinel theorem applied to a
concrete store with empty reference tables, an empty master table, a
faulted one-row `Fail_Progress` sheet and a `Good_Progress` sheet with
an unsynced row for the unregistered batch `B9`. -/
theorem c9_witness :
    merge_weekly_to_master
        ⟨[⟨"Batches", []⟩, ⟨"Centers", []⟩, ⟨masterTitle, []⟩,
          ⟨"Fail_Progress", [["x"]]⟩,
          ⟨"Good_Progress", [["t", "B9", "Math", "F", "Ch", "3", "0"]]⟩],
         ["Fail_Progress"]⟩ "TS" =
      (⟨[⟨"Batches", []⟩, ⟨"Centers", []⟩,
         ⟨masterTitle, [["TS", "Unknown Country", "Unknown Center",
           "B9", "Math", "F", "Ch", "3"]]⟩,
         ⟨"Fail_Progress", [["x"]]⟩,
         ⟨"Good_Progress", [["t", "B9", "Math", "F", "Ch", "3", "1"]]⟩],
        ["Fail_Progress"]⟩,
       ["Fail_Progress"]) :=
  c9_isolation_sentinels [] [] [] [["x"]] ["t", "B9", "Math", "F", "Ch", "3", "0"]
    "TS" (by decide) (by decide) (by decide) (by decide) (by decide)

/-- C10: the app1 audit's submitted-set construction reads master
columns 3 and 7 guarded only by `len(row) > 5`; it is total exactly
under the precondition that every master row longer than 5 columns has
at least 8 columns, and on a master table containing a 6-column row the
construction performs an out-of-range access (modelled as `none`). -/
theorem c10_audit_totality :
    (∀ (batchesData centersData masterData : List Row) (week : Nat),
      (∀ m ∈ masterData, 5 < m.length → 8 ≤ m.length) →
      (findMissing_app1 batchesData centersData masterData week).isSome = true) ∧
    findMissing_app1 [] [] [["a", "b", "c", "d", "e", "f"]] 5 = none := by
  constructor
  · intro batchesData centersData masterData week hlen
    rw [findMissing_app1]
    have hsub : (submittedPairs_app1 masterData).isSome = true := by
      rw [submittedPairs_app1]
      apply seqOption_isSome
      intro o ho
      rcases List.mem_map.1 ho with ⟨m, hm, rfl⟩
      have hm5 : 5 < m.length := by
        have := List.of_mem_filter hm
        simpa using this
      have hm8 : 8 ≤ m.length := hlen m (List.mem_of_mem_filter hm) hm5
      have h3 : m[3]? = some m[3] := List.getElem?_eq_getElem (by omega)
      have h7 : m[7]? = some m[7] := List.getElem?_eq_getElem (by omega)
      rw [h3, h7]
      rfl
    rcases Option.isSome_iff_exists.1 hsub with ⟨pairs, hpairs⟩
    rw [hpairs]
    rfl
  · decide

/-- C10 witness: the totality half applied to a master table whose only
row has the full 8 columns. -/
theorem c10_audit_witness :
    (findMissing_app1 [] [] [["a", "b", "c", "d", "e", "f", "g", "h"]] 5).isSome = true :=
  c10_audit_totality.1 [] [] [["a", "b", "c", "d", "e", "f", "g", "h"]] 5
    (by decide)

end SyllabusTracker
